import Mathlib

/-!
Verification development for the andrzejewsky.com blog repository.

The repository's executable logic lives in three places:

* a pedagogical Redux reimplementation inside the blog post
  `content/blog/how-to-create-your-own-redux/index.md`
  (`combineReducers`, `createStore`);
* a Vue-3-style reactivity walkthrough inside the post
  "Vue 3 reactivity in depth" (`track`, `callEffects`, `effect`,
  in their final WeakMap-keyed version);
* the Gatsby presentational components
  (`Layout`, `Heading`, `Bio`, the blog-post template).

Each is embedded shallowly below: JavaScript objects become association
lists in insertion order, object identity where it matters becomes an
explicit heap of numbered addresses, and side effects of rendering become
an explicit effect list.
-/

namespace Blog

/-! ### JavaScript objects as association lists

A JavaScript object is modelled as an association list of key-value
pairs in insertion order.  `getObj` is property read (`undefined`
becomes `none`), `setObj` is property write (overwriting the existing
binding in place, else appending a new one, as JS assignment does). -/

def getObj {κ α : Type} [DecidableEq κ] : List (κ × α) → κ → Option α
  | [], _ => none
  | (k0, v) :: rest, k => if k0 = k then some v else getObj rest k

def setObj {κ α : Type} [DecidableEq κ] : List (κ × α) → κ → α → List (κ × α)
  | [], k, v => [(k, v)]
  | (k0, v0) :: rest, k, v =>
      if k0 = k then (k, v) :: rest else (k0, v0) :: setObj rest k v

theorem getObj_setObj_same {κ α : Type} [DecidableEq κ]
    (m : List (κ × α)) (k : κ) (v : α) : getObj (setObj m k v) k = some v := by
  induction m with
  | nil => simp [setObj, getObj]
  | cons hd tl ih =>
    obtain ⟨k0, v0⟩ := hd
    by_cases h : k0 = k
    · simp [setObj, h, getObj]
    · simp [setObj, h, getObj, ih]

theorem getObj_setObj_other {κ α : Type} [DecidableEq κ]
    (m : List (κ × α)) (k k' : κ) (v : α) (hk : k' ≠ k) :
    getObj (setObj m k v) k' = getObj m k' := by
  have hk' : ¬ k = k' := fun h => hk h.symm
  induction m with
  | nil => simp [setObj, getObj, hk']
  | cons hd tl ih =>
    obtain ⟨k0, v0⟩ := hd
    by_cases h : k0 = k
    · subst h
      simp [setObj, getObj, hk']
    · by_cases h' : k0 = k'
      · simp [setObj, h, getObj, h', hk]
      · simp [setObj, h, getObj, h', ih]

/-! ### createStore

From `content/blog/how-to-create-your-own-redux/index.md`:

```js
const createStore = rootReducer => {
  let state;
  let listeners = [];
  const getState = () => state;
  const dispatch = action => {
    state = rootReducer(state, action);
    listeners.forEach(listener => listener(state));
  };
  const subscribe = listener => { listeners.push(listener); };
  dispatch({});
  return { getState, dispatch, subscribe };
};
```

`state` starts as `undefined` (modelled `none`); `rootReducer` therefore
receives an `Option St`.  Listener functions are opaque: they are
modelled by identifiers, and `dispatch` returns, next to the updated
store, the log of listener invocations it performed, each carrying the
state value passed to the listener, in call order. -/

structure Store (St A : Type) where
  state : Option St
  listeners : List Nat

def getState {St A : Type} (st : Store St A) : Option St := st.state

def dispatch {St A : Type} (root : Option St → A → St) (st : Store St A)
    (a : A) : Store St A × List (Nat × St) :=
  let s := root st.state a
  (⟨some s, st.listeners⟩, st.listeners.foldl (fun log l => log ++ [(l, s)]) [])

def subscribe {St A : Type} (st : Store St A) (l : Nat) : Store St A :=
  ⟨st.state, st.listeners ++ [l]⟩

def createStore {St A : Type} (root : Option St → A → St) (emptyAction : A) :
    Store St A :=
  (dispatch root ⟨none, []⟩ emptyAction).1

/-- External operations performed on a store after creation. -/
inductive StoreOp (A : Type) where
  | dispatchOp (a : A)
  | subscribeOp (l : Nat)

def applyOp {St A : Type} (root : Option St → A → St) (st : Store St A) :
    StoreOp A → Store St A
  | .dispatchOp a => (dispatch root st a).1
  | .subscribeOp l => subscribe st l

def applyOps {St A : Type} (root : Option St → A → St) (st : Store St A)
    (ops : List (StoreOp A)) : Store St A :=
  ops.foldl (applyOp root) st

/-- The listener identifiers subscribed by a sequence of operations,
in subscription order. -/
def subsOf {A : Type} : List (StoreOp A) → List Nat
  | [] => []
  | .dispatchOp _ :: ops => subsOf ops
  | .subscribeOp l :: ops => l :: subsOf ops

theorem foldl_notify {St : Type} (L : List Nat) (s : St) (init : List (Nat × St)) :
    L.foldl (fun log l => log ++ [(l, s)]) init = init ++ L.map (fun l => (l, s)) := by
  induction L generalizing init with
  | nil => simp
  | cons hd tl ih => simp [List.foldl, ih]

theorem applyOps_cons {St A : Type} (root : Option St → A → St)
    (st : Store St A) (op : StoreOp A) (ops : List (StoreOp A)) :
    applyOps root st (op :: ops) = applyOps root (applyOp root st op) ops := rfl

theorem listeners_applyOps {St A : Type} (root : Option St → A → St)
    (st : Store St A) (ops : List (StoreOp A)) :
    (applyOps root st ops).listeners = st.listeners ++ subsOf ops := by
  induction ops generalizing st with
  | nil => simp [applyOps, subsOf]
  | cons op ops ih =>
    rw [applyOps_cons, ih]
    cases op with
    | dispatchOp a => simp [applyOp, dispatch, subsOf]
    | subscribeOp l => simp [applyOp, subscribe, subsOf]

theorem listeners_createStore {St A : Type} (root : Option St → A → St)
    (e : A) : (createStore root e).listeners = [] := rfl

/-- Claim C1: for every store returned by createStore, every reachable
state and every action, dispatch updates the store state to
rootReducer applied to the previous state and the action, then calls
each listener previously registered via subscribe exactly once, with
the new state, in subscription order; afterwards getState returns the
new state. -/
theorem C1_dispatch_updates_and_notifies {St A : Type}
    (root : Option St → A → St) (e : A) (ops : List (StoreOp A)) (a : A) :
    (dispatch root (applyOps root (createStore root e) ops) a).1.state
        = some (root (applyOps root (createStore root e) ops).state a) ∧
    getState (dispatch root (applyOps root (createStore root e) ops) a).1
        = some (root (applyOps root (createStore root e) ops).state a) ∧
    (dispatch root (applyOps root (createStore root e) ops) a).2
        = (subsOf ops).map
            (fun l => (l, root (applyOps root (createStore root e) ops).state a)) := by
  refine ⟨rfl, rfl, ?_⟩
  show (applyOps root (createStore root e) ops).listeners.foldl _ [] = _
  rw [foldl_notify, listeners_applyOps, listeners_createStore]
  simp

/-- Claim C9: immediately after createStore returns, before any external
dispatch or subscribe, getState returns the root reducer applied to
undefined state and the empty action; the initializing dispatch runs
with no listeners registered, so it notifies nobody. -/
theorem C9_createStore_initial_state {St A : Type}
    (root : Option St → A → St) (e : A) :
    getState (createStore root e) = some (root none e) ∧
    (createStore root e).listeners = [] ∧
    (dispatch root (⟨none, []⟩ : Store St A) e).2 = [] :=
  ⟨rfl, rfl, rfl⟩

/-! ### combineReducers

From the same blog post:

```js
const combineReducers = reducers => {
  const nextState = {};
  const reducerFunctions = {};
  const reducersKeys = Object.keys(reducers);
  reducersKeys.forEach(reducerKey => {
    if (typeof reducers[reducerKey] === "function") {
      reducerFunctions[reducerKey] = reducers[reducerKey];
    }
  });
  const reducerFunctionsKeys = Object.keys(reducerFunctions);
  return (state = {}, action) => {
    reducerFunctionsKeys.forEach(reducerKey => {
      const reducer = reducerFunctions[reducerKey];
      nextState[reducerKey] = reducer(state[reducerKey], action);
    });
    return nextState;
  };
};
```

The `reducers` argument is an object whose values are either reducer
functions or arbitrary non-function values (`RVal`).  `nextState` is
allocated once, outside the returned closure, and every call of the
returned reducer mutates it in place and returns it; to reason about
that object identity the returned closure is modelled as a
`CombinedReducer` holding the address `nextAddr` of `nextState` in an
explicit heap, and calling it (`combinedCall`) rewrites the heap at
that address.  A reducer function receives `state[key]`
(`none` for a missing key) and the action.  The `state = {}` default
for an `undefined` state argument is modelled by `Option.getD` on an
optional state object. -/

def Heap (V : Type) := Nat → List (String × V)

inductive RVal (V A : Type) where
  | fn (f : Option V → A → V)
  | other (v : V)

/-- The function-valued entries of `reducers`, in key order, as collected
into the `reducerFunctions` object. -/
def reducerFunctions {V A : Type} (reducers : List (String × RVal V A)) :
    List (String × (Option V → A → V)) :=
  reducers.filterMap (fun p =>
    match p.2 with
    | .fn f => some (p.1, f)
    | .other _ => none)

structure CombinedReducer (V A : Type) where
  rfs : List (String × (Option V → A → V))
  nextAddr : Nat

/-- Running combineReducers: collect the function-valued entries and
allocate the (empty) `nextState` object at a fresh address. -/
def combineReducers {V A : Type} (reducers : List (String × RVal V A))
    (addr : Nat) (h : Heap V) : CombinedReducer V A × Heap V :=
  (⟨reducerFunctions reducers, addr⟩,
   fun n => if n = addr then [] else h n)

/-- One call of the returned reducer, acting on the contents of the
closed-over `nextState` object: each function key is assigned the value
of its reducer at `state[key]` and the action. -/
def combinedBody {V A : Type} (rfs : List (String × (Option V → A → V)))
    (ns : List (String × V)) (state : Option (List (String × V))) (a : A) :
    List (String × V) :=
  rfs.foldl (fun ns p => setObj ns p.1 (p.2 (getObj (state.getD []) p.1) a)) ns

/-- Calling the returned reducer on the heap: the `nextState` object at
`cr.nextAddr` is rewritten in place and its address is returned as the
result object. -/
def combinedCall {V A : Type} (cr : CombinedReducer V A) (h : Heap V)
    (state : Option (List (String × V))) (a : A) : Heap V × Nat :=
  (fun n => if n = cr.nextAddr
            then combinedBody cr.rfs (h cr.nextAddr) state a
            else h n,
   cr.nextAddr)

/-- The contents of `nextState` after a sequence of calls of the returned
reducer, starting from the empty object it is initialized with. -/
def runBody {V A : Type} (rfs : List (String × (Option V → A → V)))
    (calls : List (Option (List (String × V)) × A)) : List (String × V) :=
  calls.foldl (fun ns c => combinedBody rfs ns c.1 c.2) []

theorem getObj_eq_none_of_not_mem {κ α : Type} [DecidableEq κ]
    (m : List (κ × α)) (k : κ) (hk : k ∉ m.map Prod.fst) : getObj m k = none := by
  induction m with
  | nil => rfl
  | cons hd tl ih =>
    obtain ⟨k0, v0⟩ := hd
    simp only [List.map_cons, List.mem_cons] at hk
    push_neg at hk
    have h1 : ¬ k0 = k := fun h => hk.1 h.symm
    simp [getObj, h1, ih hk.2]

theorem reducerFunctions_keys_sublist {V A : Type}
    (reducers : List (String × RVal V A)) :
    ((reducerFunctions reducers).map Prod.fst).Sublist
      (reducers.map Prod.fst) := by
  induction reducers with
  | nil => simp [reducerFunctions]
  | cons hd tl ih =>
    obtain ⟨k, r⟩ := hd
    cases r with
    | fn f => simpa [reducerFunctions] using ih.cons₂ k
    | other v => simpa [reducerFunctions] using ih.cons k

theorem reducerFunctions_keys_nodup {V A : Type}
    (reducers : List (String × RVal V A))
    (hnd : (reducers.map Prod.fst).Nodup) :
    ((reducerFunctions reducers).map Prod.fst).Nodup :=
  hnd.sublist (reducerFunctions_keys_sublist reducers)

theorem reducerFunctions_cons_fn {V A : Type} (k0 : String)
    (f : Option V → A → V) (tl : List (String × RVal V A)) :
    reducerFunctions ((k0, .fn f) :: tl) = (k0, f) :: reducerFunctions tl := rfl

theorem reducerFunctions_cons_other {V A : Type} (k0 : String) (v : V)
    (tl : List (String × RVal V A)) :
    reducerFunctions ((k0, RVal.other (A := A) v) :: tl) = reducerFunctions tl := rfl

theorem getObj_reducerFunctions {V A : Type}
    (reducers : List (String × RVal V A)) (k : String)
    (hnd : (reducers.map Prod.fst).Nodup) :
    getObj (reducerFunctions reducers) k =
      match getObj reducers k with
      | some (.fn f) => some f
      | some (.other _) => none
      | none => none := by
  induction reducers with
  | nil => simp [reducerFunctions, getObj]
  | cons hd tl ih =>
    obtain ⟨k0, r⟩ := hd
    simp only [List.map_cons, List.nodup_cons] at hnd
    cases r with
    | fn f =>
      rw [reducerFunctions_cons_fn]
      by_cases h : k0 = k
      · subst h
        simp [getObj]
      · simp [getObj, h, ih hnd.2]
    | other v =>
      rw [reducerFunctions_cons_other]
      by_cases h : k0 = k
      · subst h
        have hk0 : k0 ∉ (reducerFunctions tl).map Prod.fst := fun hmem =>
          hnd.1 ((reducerFunctions_keys_sublist tl).mem hmem)
        simp [getObj, getObj_eq_none_of_not_mem _ _ hk0]
      · simp [getObj, h, ih hnd.2]

theorem combinedBody_cons {V A : Type} (k0 : String) (f0 : Option V → A → V)
    (tl : List (String × (Option V → A → V))) (ns : List (String × V))
    (state : Option (List (String × V))) (a : A) :
    combinedBody ((k0, f0) :: tl) ns state a
      = combinedBody tl (setObj ns k0 (f0 (getObj (state.getD []) k0) a)) state a := rfl

theorem getObj_combinedBody {V A : Type}
    (rfs : List (String × (Option V → A → V)))
    (hnd : (rfs.map Prod.fst).Nodup)
    (ns : List (String × V)) (state : Option (List (String × V))) (a : A)
    (k : String) :
    getObj (combinedBody rfs ns state a) k =
      match getObj rfs k with
      | some f => some (f (getObj (state.getD []) k) a)
      | none => getObj ns k := by
  induction rfs generalizing ns with
  | nil => simp [combinedBody, getObj]
  | cons hd tl ih =>
    obtain ⟨k0, f0⟩ := hd
    simp only [List.map_cons, List.nodup_cons] at hnd
    rw [combinedBody_cons]
    by_cases h : k0 = k
    · subst h
      rw [ih hnd.2]
      have htl : getObj tl k0 = none := by
        apply getObj_eq_none_of_not_mem
        intro hmem
        exact hnd.1 hmem
      simp [htl, getObj, getObj_setObj_same]
    · rw [ih hnd.2]
      have hk : k ≠ k0 := fun hkk => h hkk.symm
      cases htl : getObj tl k with
      | some f => simp [getObj, h, htl]
      | none => simp [getObj, h, htl, getObj_setObj_other _ _ _ _ hk]

theorem getObj_foldl_body_none {V A : Type}
    (rfs : List (String × (Option V → A → V)))
    (hnd : (rfs.map Prod.fst).Nodup)
    (calls : List (Option (List (String × V)) × A))
    (ns : List (String × V)) (k : String)
    (hns : getObj ns k = none) (hk : getObj rfs k = none) :
    getObj (calls.foldl (fun ns c => combinedBody rfs ns c.1 c.2) ns) k = none := by
  induction calls generalizing ns with
  | nil => exact hns
  | cons c calls ih =>
    simp only [List.foldl_cons]
    apply ih
    rw [getObj_combinedBody rfs hnd]
    simp [hk, hns]

/-- Claim C2: the reducer returned by combineReducers, applied to any
state object (defaulting to the empty object when the state is
undefined) and any action, returns an object whose value at each key
bound to a reducer function equals that function applied to the state
value at the key and the action, and which binds no key whose entry in
`reducers` is missing or not a function.  The result is stated for the
object returned by the last of an arbitrary sequence of calls, since
the returned reducer reuses one result object. -/
theorem C2_combineReducers_values {V A : Type}
    (reducers : List (String × RVal V A))
    (hnd : (reducers.map Prod.fst).Nodup)
    (calls : List (Option (List (String × V)) × A))
    (s : Option (List (String × V))) (a : A) (k : String) :
    (∀ f, getObj reducers k = some (.fn f) →
      getObj (runBody (reducerFunctions reducers) (calls ++ [(s, a)])) k
        = some (f (getObj (s.getD []) k) a)) ∧
    ((∀ f, getObj reducers k ≠ some (.fn f)) →
      getObj (runBody (reducerFunctions reducers) (calls ++ [(s, a)])) k
        = none) := by
  have hndf := reducerFunctions_keys_nodup reducers hnd
  have hlast : runBody (reducerFunctions reducers) (calls ++ [(s, a)])
      = combinedBody (reducerFunctions reducers)
          (runBody (reducerFunctions reducers) calls) s a := by
    simp [runBody, List.foldl_append]
  constructor
  · intro f hf
    have hrf : getObj (reducerFunctions reducers) k = some f := by
      rw [getObj_reducerFunctions reducers k hnd, hf]
    rw [hlast, getObj_combinedBody _ hndf, hrf]
  · intro hnf
    have hrf : getObj (reducerFunctions reducers) k = none := by
      rw [getObj_reducerFunctions reducers k hnd]
      cases hobj : getObj reducers k with
      | none => rfl
      | some r =>
        cases r with
        | fn f => exact absurd hobj (hnf f)
        | other v => rfl
    rw [hlast, getObj_combinedBody _ hndf, hrf]
    exact getObj_foldl_body_none _ hndf calls [] k rfl hrf

/-- A concrete reducers object: one reducer function under the key a,
one non-function entry under the key b. -/
def redC : List (String × RVal Int Unit) :=
  [("a", .fn (fun s _ => s.getD 0 + 1)), ("b", .other 7)]

theorem C2_combineReducers_values_witness :
    getObj (runBody (reducerFunctions redC) ([] ++ [(some [("a", (5 : Int))], ())])) "a"
        = some 6 ∧
    getObj (runBody (reducerFunctions redC) ([] ++ [(some [("a", (5 : Int))], ())])) "b"
        = none := by
  constructor
  · have h := (C2_combineReducers_values redC (by decide) []
      (some [("a", (5 : Int))]) () "a").1 (fun s _ => s.getD 0 + 1) rfl
    simpa using h
  · have h := (C2_combineReducers_values redC (by decide) []
      (some [("a", (5 : Int))]) () "b").2 (by intro f h; simp [redC, getObj] at h)
    exact h

/-- The statement of claim C3 as written: the reducer returned by
combineReducers shares no mutable state between invocations, so two
successive calls return distinct objects and the second call leaves
the first call's result object unchanged. -/
def claimC3 : Prop :=
  ∀ (V A : Type) (cr : CombinedReducer V A) (h : Heap V)
    (s1 : Option (List (String × V))) (a1 : A)
    (s2 : Option (List (String × V))) (a2 : A),
    (combinedCall cr (combinedCall cr h s1 a1).1 s2 a2).2
        ≠ (combinedCall cr h s1 a1).2 ∧
    (combinedCall cr (combinedCall cr h s1 a1).1 s2 a2).1 (combinedCall cr h s1 a1).2
        = (combinedCall cr h s1 a1).1 (combinedCall cr h s1 a1).2

/-- Claim C3 is false: both calls return the address of the single
closed-over nextState object, so the two results are never distinct. -/
theorem C3_counterexample : ¬ claimC3 := by
  intro hcl
  have h := hcl Int Unit ⟨[("c", fun s _ => s.getD 0 + 1)], 0⟩
    (fun _ => []) none () none ()
  exact h.1 rfl

/-- Claim C3 amended: the returned reducer closes over a single
nextState object; every call mutates that object in place and returns
it, so two successive calls return the identical object (the one at
cr.nextAddr), the second call rewrites the contents of the object the
first call returned, and no heap object other than nextState is ever
modified. -/
theorem C3_amended_single_mutable_result {V A : Type}
    (cr : CombinedReducer V A) (h : Heap V)
    (s1 : Option (List (String × V))) (a1 : A)
    (s2 : Option (List (String × V))) (a2 : A) :
    (combinedCall cr (combinedCall cr h s1 a1).1 s2 a2).2
        = (combinedCall cr h s1 a1).2 ∧
    (combinedCall cr h s1 a1).2 = cr.nextAddr ∧
    (∀ n, n ≠ cr.nextAddr → (combinedCall cr h s1 a1).1 n = h n) ∧
    (combinedCall cr (combinedCall cr h s1 a1).1 s2 a2).1 cr.nextAddr
        = combinedBody cr.rfs ((combinedCall cr h s1 a1).1 cr.nextAddr) s2 a2 := by
  refine ⟨rfl, rfl, ?_, ?_⟩
  · intro n hn
    simp [combinedCall, hn]
  · simp [combinedCall]

/-! ### Vue-3-style reactivity walkthrough

From the "Vue 3 reactivity in depth" post, final (WeakMap-keyed)
version:

```js
let currentEffect = null;
const deps = new WeakMap();

const track = (target, key) => {
  if (!currentEffect) return;
  let objMap = deps.get(target);
  if (!objMap) { objMap = {}; deps.set(target, objMap); }
  let dep = objMap[key];
  if (!dep) { dep = []; objMap[key] = dep; }
  dep.push(currentEffect);
};

const callEffects = (target, key) => {
  let objMap = deps.get(target);
  if (!objMap) return;
  const dep = objMap[key];
  if (!dep) return;
  dep.forEach(effect => effect());
};

const effect = fn => {
  currentEffect = fn;
  currentEffect();
  currentEffect = null;
};
```

Target objects are identified by numbers (the WeakMap keys), effect
functions by numbers as well; an effect function is characterized by
the reactive properties its body reads.  The proxy returned by
`reactive` calls `track(target, key)` on every property read and
`callEffects(target, key)` on every property write. -/

/-- The mutable module state of the walkthrough: the running effect, if
any, and the WeakMap from target objects to their per-key effect
collections. -/
structure RState where
  currentEffect : Option Nat
  deps : List (Nat × List (String × List Nat))

def initRState : RState := ⟨none, []⟩

def track (s : RState) (target : Nat) (key : String) : RState :=
  match s.currentEffect with
  | none => s
  | some ce =>
    let objMap := (getObj s.deps target).getD []
    let dep := (getObj objMap key).getD []
    ⟨s.currentEffect, setObj s.deps target (setObj objMap key (dep ++ [ce]))⟩

/-- The effects fired, in order, by a write to the given target and key. -/
def callEffects (s : RState) (target : Nat) (key : String) : List Nat :=
  match getObj s.deps target with
  | none => []
  | some objMap =>
    match getObj objMap key with
    | none => []
    | some dep => dep

/-- Running the body of an effect function: each listed property read
goes through the reactive proxy and calls track. -/
def runReads (s : RState) (reads : List (Nat × String)) : RState :=
  reads.foldl (fun s r => track s r.1 r.2) s

/-- The effect function: set currentEffect, run the body (which
performs its reads), reset currentEffect to null. -/
def effectRun (s : RState) (e : Nat) (reads : List (Nat × String)) : RState :=
  let s1 := runReads ⟨some e, s.deps⟩ reads
  ⟨none, s1.deps⟩

/-- The operations a client of the walkthrough can perform: register an
effect whose body reads the listed properties, read a reactive
property outside any effect, or write a reactive property (which fires
callEffects; firing changes no dependency state, since the effects
re-run with currentEffect null). -/
inductive ROp where
  | runEffect (e : Nat) (reads : List (Nat × String))
  | readOutside (target : Nat) (key : String)
  | setProp (target : Nat) (key : String)

def applyROp (s : RState) : ROp → RState
  | .runEffect e reads => effectRun s e reads
  | .readOutside t k => track s t k
  | .setProp _ _ => s

def runROps (ops : List ROp) : RState :=
  ops.foldl applyROp initRState

theorem track_none {s : RState} (h : s.currentEffect = none)
    (t : Nat) (k : String) : track s t k = s := by
  unfold track
  rw [h]

theorem track_currentEffect (s : RState) (t : Nat) (k : String) :
    (track s t k).currentEffect = s.currentEffect := by
  unfold track
  cases h : s.currentEffect with
  | none => exact h
  | some ce => rfl

theorem track_deps {s : RState} {ce : Nat} (h : s.currentEffect = some ce)
    (t0 : Nat) (k0 : String) :
    (track s t0 k0).deps
      = setObj s.deps t0 (setObj ((getObj s.deps t0).getD []) k0
          (((getObj ((getObj s.deps t0).getD []) k0).getD []) ++ [ce])) := by
  unfold track
  rw [h]

theorem callEffects_track {s : RState} {ce : Nat}
    (h : s.currentEffect = some ce) (t0 : Nat) (k0 : String)
    (t : Nat) (k : String) :
    callEffects (track s t0 k0) t k =
      if t = t0 ∧ k = k0 then callEffects s t k ++ [ce]
      else callEffects s t k := by
  by_cases ht : t = t0
  · subst ht
    by_cases hk : k = k0
    · subst hk
      rw [if_pos ⟨rfl, rfl⟩]
      have h1 : callEffects (track s t k) t k
          = ((getObj ((getObj s.deps t).getD []) k).getD []) ++ [ce] := by
        unfold callEffects
        rw [track_deps h, getObj_setObj_same]
        simp [getObj_setObj_same]
      rw [h1]
      cases hobj : getObj s.deps t with
      | none => simp [callEffects, hobj, getObj]
      | some objMap =>
        cases hdep : getObj objMap k with
        | none => simp [callEffects, hobj, hdep]
        | some dep => simp [callEffects, hobj, hdep]
    · rw [if_neg (fun hc => hk hc.2)]
      have h1 : callEffects (track s t k0) t k
          = match getObj ((getObj s.deps t).getD []) k with
            | none => []
            | some dep => dep := by
        unfold callEffects
        rw [track_deps h, getObj_setObj_same]
        simp only
        rw [getObj_setObj_other _ _ _ _ hk]
      rw [h1]
      cases hobj : getObj s.deps t with
      | none => simp [callEffects, hobj, getObj]
      | some objMap => simp [callEffects, hobj]
  · rw [if_neg (fun hc => ht hc.1)]
    unfold callEffects
    rw [track_deps h, getObj_setObj_other _ _ _ _ ht]

theorem runReads_currentEffect (s : RState) (reads : List (Nat × String)) :
    (runReads s reads).currentEffect = s.currentEffect := by
  induction reads generalizing s with
  | nil => rfl
  | cons r reads ih =>
    have hstep : runReads s (r :: reads) = runReads (track s r.1 r.2) reads := rfl
    rw [hstep, ih, track_currentEffect]

theorem mem_callEffects_runReads {s : RState} {ce : Nat}
    (h : s.currentEffect = some ce) (reads : List (Nat × String))
    (e t : Nat) (k : String) :
    e ∈ callEffects (runReads s reads) t k ↔
      e ∈ callEffects s t k ∨ (e = ce ∧ (t, k) ∈ reads) := by
  induction reads generalizing s with
  | nil => simp [runReads]
  | cons r reads ih =>
    obtain ⟨t0, k0⟩ := r
    have hstep : runReads s ((t0, k0) :: reads) = runReads (track s t0 k0) reads := rfl
    rw [hstep]
    have hce : (track s t0 k0).currentEffect = some ce := by
      rw [track_currentEffect, h]
    rw [ih hce, callEffects_track h t0 k0 t k]
    by_cases htk : t = t0 ∧ k = k0
    · rw [if_pos htk]
      constructor
      · rintro (hml | ⟨he, hr⟩)
        · rcases List.mem_append.mp hml with h1 | h1
          · exact Or.inl h1
          · refine Or.inr ⟨by simpa using h1, ?_⟩
            exact List.mem_cons.mpr (Or.inl (by rw [htk.1, htk.2]))
        · exact Or.inr ⟨he, List.mem_cons.mpr (Or.inr hr)⟩
      · rintro (hml | ⟨he, hr⟩)
        · exact Or.inl (List.mem_append.mpr (Or.inl hml))
        · rcases List.mem_cons.mp hr with heq | hmm
          · exact Or.inl (List.mem_append.mpr (Or.inr (by simp [he])))
          · exact Or.inr ⟨he, hmm⟩
    · rw [if_neg htk]
      constructor
      · rintro (hml | ⟨he, hr⟩)
        · exact Or.inl hml
        · exact Or.inr ⟨he, List.mem_cons.mpr (Or.inr hr)⟩
      · rintro (hml | ⟨he, hr⟩)
        · exact Or.inl hml
        · rcases List.mem_cons.mp hr with heq | hmm
          · exact absurd ⟨congrArg Prod.fst heq, congrArg Prod.snd heq⟩ htk
          · exact Or.inr ⟨he, hmm⟩

theorem mem_callEffects_effectRun (s : RState) (e0 : Nat)
    (reads : List (Nat × String)) (e t : Nat) (k : String) :
    e ∈ callEffects (effectRun s e0 reads) t k ↔
      e ∈ callEffects s t k ∨ (e = e0 ∧ (t, k) ∈ reads) := by
  have h : (⟨some e0, s.deps⟩ : RState).currentEffect = some e0 := rfl
  have hdeps : callEffects (effectRun s e0 reads) t k
      = callEffects (runReads ⟨some e0, s.deps⟩ reads) t k := rfl
  have hbase : callEffects (⟨some e0, s.deps⟩ : RState) t k = callEffects s t k := rfl
  rw [hdeps, mem_callEffects_runReads h reads e t k, hbase]

theorem currentEffect_applyROp {s : RState} (h : s.currentEffect = none)
    (op : ROp) : (applyROp s op).currentEffect = none := by
  cases op with
  | runEffect e reads => rfl
  | readOutside t k => rw [applyROp, track_none h]; exact h
  | setProp t k => exact h

theorem currentEffect_foldROps {s : RState} (h : s.currentEffect = none)
    (ops : List ROp) : (ops.foldl applyROp s).currentEffect = none := by
  induction ops generalizing s with
  | nil => exact h
  | cons op ops ih => exact ih (currentEffect_applyROp h op)

theorem mem_callEffects_foldROps {s : RState} (h : s.currentEffect = none)
    (ops : List ROp) (e t : Nat) (k : String) :
    e ∈ callEffects (ops.foldl applyROp s) t k ↔
      e ∈ callEffects s t k ∨
        ∃ reads, ROp.runEffect e reads ∈ ops ∧ (t, k) ∈ reads := by
  induction ops generalizing s with
  | nil => simp
  | cons op ops ih =>
    rw [List.foldl_cons, ih (currentEffect_applyROp h op)]
    cases op with
    | runEffect e0 reads0 =>
      rw [show applyROp s (.runEffect e0 reads0) = effectRun s e0 reads0 from rfl,
        mem_callEffects_effectRun]
      constructor
      · rintro ((h1 | ⟨he, hr⟩) | ⟨reads, hmem, hr⟩)
        · exact Or.inl h1
        · exact Or.inr ⟨reads0, by simp [he], hr⟩
        · exact Or.inr ⟨reads, by simp [hmem], hr⟩
      · rintro (h1 | ⟨reads, hmem, hr⟩)
        · exact Or.inl (Or.inl h1)
        · rcases List.mem_cons.mp hmem with heq | hmem'
          · cases heq
            exact Or.inl (Or.inr ⟨rfl, hr⟩)
          · exact Or.inr ⟨reads, hmem', hr⟩
    | readOutside t0 k0 =>
      rw [show applyROp s (.readOutside t0 k0) = track s t0 k0 from rfl, track_none h]
      constructor
      · rintro (h1 | ⟨reads, hmem, hr⟩)
        · exact Or.inl h1
        · exact Or.inr ⟨reads, by simp [hmem], hr⟩
      · rintro (h1 | ⟨reads, hmem, hr⟩)
        · exact Or.inl h1
        · rcases List.mem_cons.mp hmem with heq | hmem'
          · cases heq
          · exact Or.inr ⟨reads, hmem', hr⟩
    | setProp t0 k0 =>
      rw [show applyROp s (.setProp t0 k0) = s from rfl]
      constructor
      · rintro (h1 | ⟨reads, hmem, hr⟩)
        · exact Or.inl h1
        · exact Or.inr ⟨reads, by simp [hmem], hr⟩
      · rintro (h1 | ⟨reads, hmem, hr⟩)
        · exact Or.inl h1
        · rcases List.mem_cons.mp hmem with heq | hmem'
          · cases heq
          · exact Or.inr ⟨reads, hmem', hr⟩

/-- Claim C7: in the final WeakMap-keyed version of the walkthrough,
writing property k of reactive object t fires exactly those effects
that, while running inside effect(), read property k of object t;
effects registered for another object or another key are not fired. -/
theorem C7_callEffects_exactly_tracked_effects
    (ops : List ROp) (e t : Nat) (k : String) :
    e ∈ callEffects (runROps ops) t k ↔
      ∃ reads, ROp.runEffect e reads ∈ ops ∧ (t, k) ∈ reads := by
  rw [runROps, mem_callEffects_foldROps rfl ops e t k]
  simp [callEffects, initRState, getObj]

/-- Claim C10: currentEffect is null whenever no effect(fn) call is in
progress, and a reactive-property read outside any effect leaves the
dependency collections unchanged: track is the identity there. -/
theorem C10_currentEffect_null_outside_effects
    (ops : List ROp) (t : Nat) (k : String) :
    (runROps ops).currentEffect = none ∧
    track (runROps ops) t k = runROps ops := by
  have h : (runROps ops).currentEffect = none := currentEffect_foldROps rfl ops
  exact ⟨h, track_none h t k⟩

theorem C3_amended_witness :
    (combinedCall (⟨[], 0⟩ : CombinedReducer Int Unit) (fun _ => []) none ()).1 1
      = (fun _ => ([] : List (String × Int))) 1 :=
  (C3_amended_single_mutable_result (⟨[], 0⟩ : CombinedReducer Int Unit)
    (fun _ => []) none () none ()).2.2.1 1 (by decide)

/-! ### Markup model for the Gatsby components

Rendered markup is a tree of elements with attribute lists, text
leaves and number leaves (a number interpolated into JSX renders as
its decimal text).  Styled components render as their underlying
element.  The ambient render environment carries what the components
read besides their props: the current clock year
(`new Date().getFullYear()` in the Layout footer).  Side effects of
rendering are collected in an explicit list; the only one in the
repository is the `console.log(social)` call in Bio. -/

inductive Node where
  | elem (tag : String) (attrs : List (String × String)) (children : List Node)
  | text (s : String)
  | num (n : Int)

structure RenderEnv where
  currentYear : Int

structure Location where
  pathname : String

structure SocialEntry where
  username : String
  link : String

inductive Effect where
  | consoleLogSocial (social : List (String × SocialEntry))

mutual

def findElem (tag : String) : Node → Option Node
  | .elem t attrs cs =>
      if t = tag then some (.elem t attrs cs) else findElemL tag cs
  | .text _ => none
  | .num _ => none

def findElemL (tag : String) : List Node → Option Node
  | [] => none
  | c :: cs =>
      match findElem tag c with
      | some n => some n
      | none => findElemL tag cs

end

def attrsOf : Node → List (String × String)
  | .elem _ a _ => a
  | _ => []

/-- The value of `attr` on the first element with the given tag, in
depth-first document order. -/
def findAttrIn (tag attr : String) (n : Node) : Option String :=
  (findElem tag n).bind fun m => getObj (attrsOf m) attr

/-! ### Heading (src/components/Layout/Heading.js) -/

structure Props where
  attrs : List (String × String)
  children : List Node

/-- The Heading component: the main h1 heading on the root path
(`__PATH_PREFIX__` + "/"), the h3 subheading elsewhere, forwarding the
rest props either way. -/
def Heading (_env : RenderEnv) (pathPrefix : String) (location : Location)
    (props : Props) : Node × List Effect :=
  ((if location.pathname = pathPrefix ++ "/"
    then Node.elem "h1" props.attrs props.children
    else Node.elem "h3" props.attrs props.children), [])

/-! ### Layout (src/components/Layout/index.js) -/

def Layout (env : RenderEnv) (pathPrefix : String) (location : Location)
    (title : String) (children : List Node) : Node × List Effect :=
  (Node.elem "div" [("class", "container")] [
      Node.elem "header" []
        [(Heading env pathPrefix location
            ⟨[], [Node.elem "a" [("href", "/")] [Node.text title]]⟩).1],
      Node.elem "main" [] children,
      Node.elem "footer" []
        [Node.text "© ", Node.num env.currentYear, Node.text ", Built with ",
         Node.elem "a" [("href", "https://www.gatsbyjs.org")] [Node.text "Gatsby"]]],
   [])

/-! ### Bio (src/components/Bio/index.js)

The queried data (useBioData) is passed in as a record; `social[key]`
is looked up for each key of `socialImages` (the BioQuery returns
matching key sets, so the default entry is never reached on real
data). -/

structure Author where
  name : String
  summary : String

structure BioData where
  author : Author
  social : List (String × SocialEntry)
  socialImages : List (String × String)
  avatar : String

def socialIcons (d : BioData) : List Node :=
  (d.socialImages.map Prod.fst).map (fun key =>
    Node.elem "a"
      [("href", ((getObj d.social key).getD ⟨"", ""⟩).link),
       ("target", "_blank"),
       ("alt", ((getObj d.social key).getD ⟨"", ""⟩).username)]
      [Node.elem "img" [("fixed", (getObj d.socialImages key).getD "")] []])

def Bio (_env : RenderEnv) (d : BioData) : Node × List Effect :=
  (Node.elem "div" [("class", "bio")] [
      Node.elem "img"
        [("fixed", d.avatar), ("alt", d.author.name),
         ("imgStyle", "borderRadius: 50%")] [],
      Node.elem "div" [("class", "summary")] [
        Node.elem "p" []
          [Node.text "Written by ",
           Node.elem "strong" [] [Node.text d.author.name]],
        Node.elem "div" [] (Node.text d.author.summary :: socialIcons d)]],
   [Effect.consoleLogSocial d.social])

/-! ### The blog-post template (src/templates/blog-post.js) -/

structure PostFrontmatter where
  title : String
  date : String
  description : Option String

structure PostData where
  frontmatter : PostFrontmatter
  excerpt : String
  html : String

structure PostRef where
  slug : String
  title : String

structure PageContext where
  previous : Option PostRef
  next : Option PostRef

/-- JavaScript `a || b` on an optional string: null/undefined and the
empty string are falsy. -/
def strOr (a : Option String) (b : String) : String :=
  match a with
  | none => b
  | some s => if s = "" then b else s

/-- The Seo component call, modelled as an element carrying its props. -/
def Seo (title description : String) : Node :=
  Node.elem "Seo" [("title", title), ("description", description)] []

def BlogPostTemplate (env : RenderEnv) (pathPrefix : String)
    (location : Location) (siteTitle : String) (post : PostData)
    (ctx : PageContext) (bio : BioData) : Node × List Effect :=
  let bioR := Bio env bio
  let article := Node.elem "article" [] [
    Node.elem "header" [] [
      Node.elem "h1" [] [Node.text post.frontmatter.title],
      Node.elem "p" [] [Node.text post.frontmatter.date]],
    Node.elem "section" [("html", post.html)] [],
    Node.elem "hr" [] [],
    Node.elem "footer" [] [bioR.1]]
  let nav := Node.elem "nav" [] [Node.elem "ul" [] [
    Node.elem "li" []
      (match ctx.previous with
       | none => []
       | some p =>
         [Node.elem "a" [("href", p.slug), ("rel", "prev")]
           [Node.text ("← " ++ p.title)]]),
    Node.elem "li" []
      (match ctx.next with
       | none => []
       | some n =>
         [Node.elem "a" [("href", n.slug), ("rel", "next")]
           [Node.text (n.title ++ " →")]])]]
  let lay := Layout env pathPrefix location siteTitle
    [Seo post.frontmatter.title (strOr post.frontmatter.description post.excerpt),
     article, nav]
  (lay.1, bioR.2 ++ lay.2)

def tagOf : Node → String
  | .elem t _ _ => t
  | .text _ => ""
  | .num _ => ""

/-- Claim C8: Heading returns the main h1 heading exactly when
location.pathname equals the root path (the path prefix followed by a
slash), and the h3 subheading otherwise; in both cases the props other
than location are forwarded unchanged to the chosen heading element. -/
theorem C8_Heading_root_path (env : RenderEnv) (pathPrefix : String)
    (location : Location) (props : Props) :
    ((Heading env pathPrefix location props).1
        = Node.elem "h1" props.attrs props.children
      ↔ location.pathname = pathPrefix ++ "/") ∧
    (location.pathname ≠ pathPrefix ++ "/" →
      (Heading env pathPrefix location props).1
        = Node.elem "h3" props.attrs props.children) := by
  by_cases h : location.pathname = pathPrefix ++ "/"
  · exact ⟨⟨fun _ => h, fun _ => by simp [Heading, h]⟩, fun hne => absurd h hne⟩
  · refine ⟨⟨fun heq => ?_, fun he => absurd he h⟩, fun _ => by simp [Heading, h]⟩
    have h3 : (Heading env pathPrefix location props).1
        = Node.elem "h3" props.attrs props.children := by simp [Heading, h]
    rw [h3] at heq
    have htag : ("h3" : String) = "h1" := congrArg tagOf heq
    exact absurd htag (by decide)

theorem C8_Heading_root_path_witness :
    (Heading ⟨2020⟩ "" ⟨"/"⟩ ⟨[], []⟩).1 = Node.elem "h1" [] [] :=
  (C8_Heading_root_path ⟨2020⟩ "" ⟨"/"⟩ ⟨[], []⟩).1.mpr (by decide)

/-- The statement of claim C4 as written: Bio, Layout, Heading and the
blog-post template are pure, deterministic functions of their props
and queried data, producing identical markup on identical inputs and
performing no observable side effect beyond the markup. -/
def claimC4 : Prop :=
  (∀ (env env2 : RenderEnv) (pp : String) (loc : Location) (props : Props),
    Heading env pp loc props = Heading env2 pp loc props) ∧
  (∀ (env : RenderEnv) (pp : String) (loc : Location) (props : Props),
    (Heading env pp loc props).2 = []) ∧
  (∀ (env env2 : RenderEnv) (pp : String) (loc : Location) (t : String)
      (c : List Node), Layout env pp loc t c = Layout env2 pp loc t c) ∧
  (∀ (env : RenderEnv) (pp : String) (loc : Location) (t : String)
      (c : List Node), (Layout env pp loc t c).2 = []) ∧
  (∀ (env env2 : RenderEnv) (d : BioData), Bio env d = Bio env2 d) ∧
  (∀ (env : RenderEnv) (d : BioData), (Bio env d).2 = []) ∧
  (∀ (env env2 : RenderEnv) (pp : String) (loc : Location) (st : String)
      (post : PostData) (ctx : PageContext) (bio : BioData),
    BlogPostTemplate env pp loc st post ctx bio
      = BlogPostTemplate env2 pp loc st post ctx bio) ∧
  (∀ (env : RenderEnv) (pp : String) (loc : Location) (st : String)
      (post : PostData) (ctx : PageContext) (bio : BioData),
    (BlogPostTemplate env pp loc st post ctx bio).2 = [])

/-- A concrete BioData record. -/
def bio0 : BioData := ⟨⟨"A", "B"⟩, [], [], "img"⟩

/-- Claim C4 is false: rendering Bio performs a console.log of the
social data, and the Layout markup changes with the clock year even
on identical props. -/
theorem C4_counterexample :
    ¬ claimC4 ∧
    (Layout ⟨2019⟩ "" ⟨""⟩ "T" []).1 ≠ (Layout ⟨2020⟩ "" ⟨""⟩ "T" []).1 := by
  constructor
  · intro hcl
    have h := hcl.2.2.2.2.2.1 ⟨2020⟩ bio0
    simp [Bio] at h
  · intro h
    simp [Layout, Heading] at h

/-- Claim C4 amended: Heading, Bio and the blog-post template produce
markup that is a deterministic function of their props and queried
data, and Heading and Layout perform no side effect; but Bio logs its
social data to the console on every render (the template, rendering
Bio, inherits that effect), and the Layout and template markup also
depends on the current clock year shown in the footer, so it is
identical across renders only when the clock year is. -/
theorem C4_amended_render_purity :
    (∀ (env env2 : RenderEnv) (pp : String) (loc : Location) (props : Props),
      Heading env pp loc props = Heading env2 pp loc props) ∧
    (∀ (env : RenderEnv) (pp : String) (loc : Location) (props : Props),
      (Heading env pp loc props).2 = []) ∧
    (∀ (env : RenderEnv) (pp : String) (loc : Location) (t : String)
        (c : List Node), (Layout env pp loc t c).2 = []) ∧
    (∀ (env env2 : RenderEnv) (pp : String) (loc : Location) (t : String)
        (c : List Node), env.currentYear = env2.currentYear →
      Layout env pp loc t c = Layout env2 pp loc t c) ∧
    (∀ (env env2 : RenderEnv) (d : BioData), (Bio env d).1 = (Bio env2 d).1) ∧
    (∀ (env : RenderEnv) (d : BioData),
      (Bio env d).2 = [Effect.consoleLogSocial d.social]) ∧
    (∀ (env env2 : RenderEnv) (pp : String) (loc : Location) (st : String)
        (post : PostData) (ctx : PageContext) (bio : BioData),
      env.currentYear = env2.currentYear →
        BlogPostTemplate env pp loc st post ctx bio
          = BlogPostTemplate env2 pp loc st post ctx bio) ∧
    (∀ (env : RenderEnv) (pp : String) (loc : Location) (st : String)
        (post : PostData) (ctx : PageContext) (bio : BioData),
      (BlogPostTemplate env pp loc st post ctx bio).2
        = [Effect.consoleLogSocial bio.social]) := by
  refine ⟨fun _ _ _ _ _ => rfl, fun _ _ _ _ => rfl, fun _ _ _ _ _ => rfl,
    ?_, fun _ _ _ => rfl, fun _ _ => rfl, ?_, fun _ _ _ _ _ _ _ => rfl⟩
  · rintro ⟨y⟩ ⟨y2⟩ pp loc t c h
    simp only at h
    subst h
    rfl
  · rintro ⟨y⟩ ⟨y2⟩ pp loc st post ctx bio h
    simp only at h
    subst h
    rfl

/-- Claim C6: for every post, the blog-post template passes the
front-matter title to Seo and renders it as the article heading,
renders the front-matter date below it in the article header, and
passes as the Seo description the front-matter description when
present and non-empty and the excerpt otherwise; a missing description
never fails, it falls back to the excerpt. -/
theorem C6_template_title_date_description (env : RenderEnv)
    (pp : String) (loc : Location) (st : String) (post : PostData)
    (ctx : PageContext) (bio : BioData) :
    findAttrIn "Seo" "title" (BlogPostTemplate env pp loc st post ctx bio).1
        = some post.frontmatter.title ∧
    findAttrIn "Seo" "description" (BlogPostTemplate env pp loc st post ctx bio).1
        = some (match post.frontmatter.description with
                | some d => if d = "" then post.excerpt else d
                | none => post.excerpt) ∧
    ((findElem "article" (BlogPostTemplate env pp loc st post ctx bio).1).bind
        (findElem "header"))
        = some (Node.elem "header" [] [
            Node.elem "h1" [] [Node.text post.frontmatter.title],
            Node.elem "p" [] [Node.text post.frontmatter.date]]) := by
  by_cases h : loc.pathname = pp ++ "/" <;>
    refine ⟨?_, ?_, ?_⟩ <;>
      simp [BlogPostTemplate, Layout, Heading, h, Seo, findAttrIn,
        findElem, findElemL, attrsOf, getObj, strOr] <;>
      rcases post.frontmatter.description with _ | d <;> rfl

/-! ### Blog-post front matter

The front-matter records of the seven posts of the repository, as
written in the Markdown files (a field absent from a file is `none`). -/

structure PostMatter where
  title : Option String
  date : Option String
  description : Option String
deriving DecidableEq

def reduxPost : PostMatter :=
  ⟨some "How to create your own Redux",
   some "2018-09-23T22:12:03.284Z",
   some "Are you a beginner in the react world? Or you want to go deeper and see how it works? — this post is for you! Let’s try to wire our own redux implementation."⟩

def commandPatternPost : PostMatter :=
  ⟨some "Using command pattern with vue composition-API",
   some "2020-08-05T23:46:37.121Z",
   none⟩

def vueReactivityPost : PostMatter :=
  ⟨some "Vue 3 reactivity in depth",
   some "2020-04-28T23:46:37.121Z",
   none⟩

def posts : List PostMatter := [
  reduxPost,
  ⟨some "How to implement Netflix slider with React and hooks",
   some "2019-03-07T22:40:32.169Z",
   some "Something about Netflix UI written in React and animated by CSS."⟩,
  ⟨some "Blockchain is a scam. Blockchain is only hype.",
   some "2020-02-03T22:12:03.284Z",
   some "What’s wrong with the blockchain? Is it a breakthrough or just a scam. Do we need this? or it’s useless?"⟩,
  ⟨some "How to get rid of unnecessary props in React.js",
   some "2020-05-16T22:40:32.169Z",
   some "Using useContext and useReducer to cope with managing state"⟩,
  ⟨some "The optimistic UI with React",
   some "2018-11-09T23:46:37.121Z",
   some "Going through the Optimistic UI approach in pure React apps and Apollo Graphql"⟩,
  commandPatternPost,
  vueReactivityPost]

/-- The statement of claim C5 as written: every post's front matter has
all three of title, date and description. -/
def claimC5 : Prop :=
  ∀ p ∈ posts, p.title.isSome ∧ p.date.isSome ∧ p.description.isSome

/-- Claim C5 is false: the command-pattern post (like the
vue-3-reactivity post) has no description field in its front matter. -/
theorem C5_counterexample : ¬ claimC5 := by
  intro h
  have hp := h commandPatternPost (by simp [posts])
  simpa [commandPatternPost] using hp.2.2

/-- Claim C5 amended: every post's front matter has a title and a date,
and every post except the command-pattern and vue-3-reactivity posts
also has a description. -/
theorem C5_amended_front_matter (p : PostMatter) (hp : p ∈ posts) :
    p.title.isSome ∧ p.date.isSome ∧
      (p.description.isSome ∨ p = commandPatternPost ∨ p = vueReactivityPost) := by
  fin_cases hp <;> simp [reduxPost, commandPatternPost, vueReactivityPost]

theorem C5_amended_front_matter_witness :
    reduxPost.title.isSome ∧ reduxPost.date.isSome ∧
      (reduxPost.description.isSome ∨ reduxPost = commandPatternPost ∨
        reduxPost = vueReactivityPost) :=
  C5_amended_front_matter reduxPost (by simp [posts])

end Blog
